import Mathlib

/-!
Shallow embedding of the memory-trainer action layer
(`src/actions/index.ts` over the tables of `db/tables.ts`).

The store is modelled as explicit lists of rows plus auto-increment
counters.  Each action becomes a pure function
`DB → Option String → Input → Nat → Except ActionError (DB × Result)`
where the `Option String` is the caller identity resolved by the
request context (`none` models an unauthenticated request) and the
`Nat` argument models the current wall-clock time (`new Date()`).

Opaque JSON payloads (`difficultyLevels`, `meta`, `prompt`, `response`)
are modelled as `String` values; numeric columns are modelled as `Nat`
(all numeric inputs are validated non-negative by the zod schemas).
Zod constraints that are not representable by the Lean types themselves
(minimum string length, positivity of `roundNumber`) are modelled by
explicit `valid` predicates checked before the handler body, matching
astro's validate-then-run pipeline.

The store's filter operators keep their relational semantics: `eq`
against a value compares column and value, and `eq` against the NULL
literal — the source's `eq(MemoryGames.ownerId, null)` — compiles to
`ownerId = NULL`, which is never true under SQL three-valued NULL
semantics (it is not an `IS NULL` test).
-/

namespace MemoryTrainer

/-- Error kinds of `ActionError` as raised by the handlers
(`UNAUTHORIZED`, `NOT_FOUND`) and by the input-validation layer
(`BAD_REQUEST`). -/
inductive ErrCode where
  | unauthorized
  | notFound
  | badRequest
deriving DecidableEq, Repr

/-- `ActionError`: a stable kind tag plus a human-readable message. -/
structure ActionError where
  code : ErrCode
  message : String
deriving DecidableEq, Repr

/-- Row of the `MemoryGames` table. -/
structure Game where
  id : Nat
  ownerId : Option String
  name : String
  description : Option String
  gameType : String
  difficultyLevels : Option String
  isActive : Bool
  createdAt : Nat
deriving DecidableEq, Repr

/-- The `status` enum of `MemorySessions`. -/
inductive SessionStatus where
  | inProgress
  | completed
  | abandoned
deriving DecidableEq, Repr

/-- Row of the `MemorySessions` table. -/
structure Session where
  id : Nat
  gameId : Nat
  userId : String
  status : SessionStatus
  totalScore : Nat
  difficulty : Option String
  startedAt : Nat
  endedAt : Option Nat
  meta : Option String
deriving DecidableEq, Repr

/-- Row of the `MemoryRounds` table. -/
structure Round where
  id : Nat
  sessionId : Nat
  roundNumber : Nat
  prompt : Option String
  response : Option String
  isCorrect : Bool
  score : Nat
  createdAt : Nat
deriving DecidableEq, Repr

/-- Row of the `MemoryPerformance` table. -/
structure Performance where
  id : Nat
  userId : String
  gameId : Nat
  totalSessions : Nat
  averageScore : Nat
  bestScore : Nat
  difficultyPreference : Option String
  updatedAt : Nat
deriving DecidableEq, Repr

/-- The persistent store: the four tables in insertion order plus the
auto-increment counters assigning fresh primary keys. -/
structure DB where
  games : List Game
  sessions : List Session
  rounds : List Round
  performances : List Performance
  nextGameId : Nat
  nextSessionId : Nat
  nextRoundId : Nat
  nextPerfId : Nat
deriving DecidableEq, Repr

/-- The empty store. -/
def DB.empty : DB :=
  { games := [], sessions := [], rounds := [], performances := [],
    nextGameId := 1, nextSessionId := 1, nextRoundId := 1, nextPerfId := 1 }

/-- `requireUser`: resolve the caller identity from the request context,
failing with `UNAUTHORIZED` when none is present. -/
def requireUser (ctx : Option String) : Except ActionError String :=
  match ctx with
  | none => .error ⟨.unauthorized, "You must be signed in to perform this action."⟩
  | some u => .ok u

/-- Input of `createGame`. -/
structure CreateGameInput where
  name : String
  description : Option String
  gameType : String
  difficultyLevels : Option String
  isActive : Option Bool
deriving DecidableEq, Repr

/-- Zod schema of `createGame`: `name` and `gameType` must be non-empty
strings. -/
def CreateGameInput.valid (i : CreateGameInput) : Bool :=
  decide (1 ≤ i.name.length) && decide (1 ≤ i.gameType.length)

/-- `createGame` handler: insert a Game owned by the caller;
`isActive` defaults to `true`, `createdAt` is set to now. -/
def createGame (db : DB) (ctx : Option String) (i : CreateGameInput) (now : Nat) :
    Except ActionError (DB × Game) :=
  if i.valid = false then .error ⟨.badRequest, "Invalid input."⟩ else
  match requireUser ctx with
  | .error e => .error e
  | .ok user =>
    let game : Game :=
      { id := db.nextGameId
        ownerId := some user
        name := i.name
        description := i.description
        gameType := i.gameType
        difficultyLevels := i.difficultyLevels
        isActive := i.isActive.getD true
        createdAt := now }
    .ok ({ db with games := db.games ++ [game], nextGameId := db.nextGameId + 1 }, game)

/-- Input of `updateGame`; `none` for a field models the key being
absent or `undefined` (skipped by the `typeof value !== "undefined"`
filter). -/
structure UpdateGameInput where
  id : Nat
  name : Option String
  description : Option String
  gameType : Option String
  difficultyLevels : Option String
  isActive : Option Bool
deriving DecidableEq, Repr

/-- Zod schema of `updateGame`: `name`, when supplied, must be non-empty;
`gameType` is an unconstrained string. -/
def UpdateGameInput.valid (i : UpdateGameInput) : Bool :=
  match i.name with
  | some n => decide (1 ≤ n.length)
  | none => true

/-- True when no recognized field is present in the input, i.e. the
`updateData` object built by the handler is empty. -/
def UpdateGameInput.isEmpty (i : UpdateGameInput) : Bool :=
  i.name.isNone && i.description.isNone && i.gameType.isNone &&
    i.difficultyLevels.isNone && i.isActive.isNone

/-- The effect of `db.update(MemoryGames).set(updateData)` on one row:
each supplied field overwrites the column, omitted fields are kept. -/
def applyGameUpdate (i : UpdateGameInput) (g : Game) : Game :=
  { g with
    name := i.name.getD g.name
    description := match i.description with
      | some d => some d
      | none => g.description
    gameType := i.gameType.getD g.gameType
    difficultyLevels := match i.difficultyLevels with
      | some d => some d
      | none => g.difficultyLevels
    isActive := i.isActive.getD g.isActive }

/-- `updateGame` handler: look up the row by id AND owner; absence of a
matching owned row is `NOT_FOUND`.  An empty update returns the existing
row without writing; otherwise every row matched by the same filter is
updated and the (first) updated row returned. -/
def updateGame (db : DB) (ctx : Option String) (i : UpdateGameInput) :
    Except ActionError (DB × Game) :=
  if i.valid = false then .error ⟨.badRequest, "Invalid input."⟩ else
  match requireUser ctx with
  | .error e => .error e
  | .ok user =>
    match db.games.find? (fun g => g.id == i.id && g.ownerId == some user) with
    | none => .error ⟨.notFound, "Game not found."⟩
    | some existing =>
      if i.isEmpty then .ok (db, existing)
      else
        let db' := { db with
          games := db.games.map (fun g =>
            if g.id == i.id && g.ownerId == some user then applyGameUpdate i g else g) }
        .ok (db', applyGameUpdate i existing)

/-- `listMyGames` handler: all Games owned by the caller, inactive ones
filtered out unless `includeInactive` (default `false`). -/
def listMyGames (db : DB) (ctx : Option String) (includeInactive? : Option Bool) :
    Except ActionError (List Game) :=
  match requireUser ctx with
  | .error e => .error e
  | .ok user =>
    let includeInactive := includeInactive?.getD false
    let games := db.games.filter (fun g => g.ownerId == some user)
    .ok (if includeInactive then games else games.filter (fun g => g.isActive))

/-- Input of `startSession`. -/
structure StartSessionInput where
  gameId : Nat
  difficulty : Option String
  meta : Option String
deriving DecidableEq, Repr

/-- SQL comparison of the nullable `ownerId` column against the NULL
literal, as produced by the store's `eq` operator when handed `null`:
under three-valued NULL semantics `ownerId = NULL` is never true,
whatever the column holds. -/
def sqlOwnerIdEqNull (_ownerId : Option String) : Bool := false

/-- The accessibility filter used by `startSession` and
`upsertPerformance`: id match AND (`ownerId = user` OR
`ownerId = NULL`).  The second disjunct, written `eq(ownerId, null)` in
the source, compiles to a plain `= NULL` comparison (not an `IS NULL`
test) and therefore never matches any row; a system-owned row
(`ownerId` null) also fails the first disjunct, since `NULL = user` is
not true either, so system-owned Games are never accessible here. -/
def gameAccessible (gameId : Nat) (user : String) (g : Game) : Bool :=
  g.id == gameId && (g.ownerId == some user || sqlOwnerIdEqNull g.ownerId)

/-- `startSession` handler: the Game must be accessible and active,
otherwise `NOT_FOUND` ("Game not available."); on success a Session in
status `in_progress` with `startedAt := now` is inserted. -/
def startSession (db : DB) (ctx : Option String) (i : StartSessionInput) (now : Nat) :
    Except ActionError (DB × Session) :=
  match requireUser ctx with
  | .error e => .error e
  | .ok user =>
    match db.games.find? (gameAccessible i.gameId user) with
    | none => .error ⟨.notFound, "Game not available."⟩
    | some game =>
      if game.isActive = false then .error ⟨.notFound, "Game not available."⟩
      else
        let session : Session :=
          { id := db.nextSessionId
            gameId := i.gameId
            userId := user
            status := .inProgress
            totalScore := 0
            difficulty := i.difficulty
            startedAt := now
            endedAt := none
            meta := i.meta }
        .ok ({ db with sessions := db.sessions ++ [session],
                       nextSessionId := db.nextSessionId + 1 }, session)

/-- Input of `completeSession`. -/
structure CompleteSessionInput where
  id : Nat
  totalScore : Option Nat
  difficulty : Option String
  status : Option SessionStatus
  meta : Option String
deriving DecidableEq, Repr

/-- The `set` object of `completeSession` applied to one row `s`:
`totalScore`, `difficulty`, `meta` fall back to the values of the
looked-up `session` when omitted, `status` defaults to `completed`,
and `endedAt` is always stamped with now. -/
def completeSet (i : CompleteSessionInput) (session s : Session) (now : Nat) : Session :=
  { s with
    totalScore := i.totalScore.getD session.totalScore
    difficulty := match i.difficulty with
      | some d => some d
      | none => session.difficulty
    status := i.status.getD .completed
    endedAt := some now
    meta := match i.meta with
      | some m => some m
      | none => session.meta }

/-- `completeSession` handler: the Session must exist and belong to the
caller; the update itself filters on id only (as in the source) and the
first updated row is returned. -/
def completeSession (db : DB) (ctx : Option String) (i : CompleteSessionInput) (now : Nat) :
    Except ActionError (DB × Session) :=
  match requireUser ctx with
  | .error e => .error e
  | .ok user =>
    match db.sessions.find? (fun s => s.id == i.id && s.userId == user) with
    | none => .error ⟨.notFound, "Session not found."⟩
    | some session =>
      let db' := { db with
        sessions := db.sessions.map (fun s =>
          if s.id == i.id then completeSet i session s now else s) }
      let first := (db.sessions.find? (fun s => s.id == i.id)).getD session
      .ok (db', completeSet i session first now)

/-- Input of `recordRound`. -/
structure RecordRoundInput where
  sessionId : Nat
  roundNumber : Option Nat
  prompt : Option String
  response : Option String
  isCorrect : Option Bool
  score : Option Nat
deriving DecidableEq, Repr

/-- Zod schema of `recordRound`: `roundNumber`, when supplied, must be a
positive integer. -/
def RecordRoundInput.valid (i : RecordRoundInput) : Bool :=
  match i.roundNumber with
  | some n => decide (1 ≤ n)
  | none => true

/-- `recordRound` handler: the Session must exist and belong to the
caller (its status is not checked); a Round row is inserted with
`roundNumber` defaulting to 1, `isCorrect` to `false`, `score` to 0. -/
def recordRound (db : DB) (ctx : Option String) (i : RecordRoundInput) (now : Nat) :
    Except ActionError (DB × Round) :=
  if i.valid = false then .error ⟨.badRequest, "Invalid input."⟩ else
  match requireUser ctx with
  | .error e => .error e
  | .ok user =>
    match db.sessions.find? (fun s => s.id == i.sessionId && s.userId == user) with
    | none => .error ⟨.notFound, "Session not found."⟩
    | some _ =>
      let round : Round :=
        { id := db.nextRoundId
          sessionId := i.sessionId
          roundNumber := i.roundNumber.getD 1
          prompt := i.prompt
          response := i.response
          isCorrect := i.isCorrect.getD false
          score := i.score.getD 0
          createdAt := now }
      .ok ({ db with rounds := db.rounds ++ [round],
                     nextRoundId := db.nextRoundId + 1 }, round)

/-- Input of `upsertPerformance`. -/
structure UpsertPerformanceInput where
  gameId : Nat
  totalSessions : Option Nat
  averageScore : Option Nat
  bestScore : Option Nat
  difficultyPreference : Option String
deriving DecidableEq, Repr

/-- The `baseValues` object of `upsertPerformance` (all columns except
the primary key): each numeric field takes the supplied value, else the
existing row's value, else 0; `difficultyPreference` takes the supplied
value else the existing value; `updatedAt` is set to now. -/
def perfBase (i : UpsertPerformanceInput) (user : String) (existing : Option Performance)
    (now : Nat) (id : Nat) : Performance :=
  { id := id
    userId := user
    gameId := i.gameId
    totalSessions := i.totalSessions.getD ((existing.map Performance.totalSessions).getD 0)
    averageScore := i.averageScore.getD ((existing.map Performance.averageScore).getD 0)
    bestScore := i.bestScore.getD ((existing.map Performance.bestScore).getD 0)
    difficultyPreference := match i.difficultyPreference with
      | some d => some d
      | none => (existing.map Performance.difficultyPreference).getD none
    updatedAt := now }

/-- `upsertPerformance` handler: the Game must be accessible (no
`isActive` gate, `NOT_FOUND` "Game not found." otherwise); then the
Performance row for (gameId, caller) is updated in place when found,
inserted otherwise. -/
def upsertPerformance (db : DB) (ctx : Option String) (i : UpsertPerformanceInput)
    (now : Nat) : Except ActionError (DB × Performance) :=
  match requireUser ctx with
  | .error e => .error e
  | .ok user =>
    match db.games.find? (gameAccessible i.gameId user) with
    | none => .error ⟨.notFound, "Game not found."⟩
    | some _ =>
      match db.performances.find? (fun p => p.gameId == i.gameId && p.userId == user) with
      | some existing =>
        let db' := { db with
          performances := db.performances.map (fun p =>
            if p.id == existing.id then perfBase i user (some existing) now p.id else p) }
        .ok (db', perfBase i user (some existing) now existing.id)
      | none =>
        let perf := perfBase i user none now db.nextPerfId
        .ok ({ db with performances := db.performances ++ [perf],
                       nextPerfId := db.nextPerfId + 1 }, perf)

/-- One invocation of one of the seven operations, with its context,
input and timestamp. -/
inductive Op where
  | createGame (ctx : Option String) (i : CreateGameInput) (now : Nat)
  | updateGame (ctx : Option String) (i : UpdateGameInput)
  | listMyGames (ctx : Option String) (includeInactive? : Option Bool)
  | startSession (ctx : Option String) (i : StartSessionInput) (now : Nat)
  | completeSession (ctx : Option String) (i : CompleteSessionInput) (now : Nat)
  | recordRound (ctx : Option String) (i : RecordRoundInput) (now : Nat)
  | upsertPerformance (ctx : Option String) (i : UpsertPerformanceInput) (now : Nat)
deriving Repr

/-- The state after executing one operation: on failure every operation
aborts with no write, leaving the store unchanged. -/
def applyOp (db : DB) (op : Op) : DB :=
  match op with
  | .createGame ctx i now =>
    match createGame db ctx i now with
    | .ok (db', _) => db'
    | .error _ => db
  | .updateGame ctx i =>
    match updateGame db ctx i with
    | .ok (db', _) => db'
    | .error _ => db
  | .listMyGames _ _ => db
  | .startSession ctx i now =>
    match startSession db ctx i now with
    | .ok (db', _) => db'
    | .error _ => db
  | .completeSession ctx i now =>
    match completeSession db ctx i now with
    | .ok (db', _) => db'
    | .error _ => db
  | .recordRound ctx i now =>
    match recordRound db ctx i now with
    | .ok (db', _) => db'
    | .error _ => db
  | .upsertPerformance ctx i now =>
    match upsertPerformance db ctx i now with
    | .ok (db', _) => db'
    | .error _ => db

/-- True exactly for `upsertPerformance` invocations. -/
def Op.isUpsertPerformance : Op → Bool
  | .upsertPerformance _ _ _ => true
  | _ => false

/-- Reachability by a sequence of operations. -/
inductive Reachable : DB → DB → Prop where
  | refl (db : DB) : Reachable db db
  | step {db1 db2 : DB} (op : Op) : Reachable db1 db2 → Reachable db1 (applyOp db2 op)

/-- Well-formedness of the Performance table: ids below the counter,
pairwise distinct ids, and at most one row per (userId, gameId) pair. -/
abbrev PerfInv (db : DB) : Prop :=
  (∀ p ∈ db.performances, p.id < db.nextPerfId) ∧
  db.performances.Pairwise (fun a b => a.id ≠ b.id) ∧
  db.performances.Pairwise (fun a b => (a.userId, a.gameId) ≠ (b.userId, b.gameId))

/-- Well-formedness of the Sessions table: ids below the counter and
pairwise distinct. -/
abbrev SessionsInv (db : DB) : Prop :=
  (∀ s ∈ db.sessions, s.id < db.nextSessionId) ∧
  db.sessions.Pairwise (fun a b => a.id ≠ b.id)

/-- Every Game row has a non-empty name. -/
abbrev NamesNonempty (db : DB) : Prop := ∀ g ∈ db.games, g.name ≠ ""

/-! Concrete fixtures used by the witness theorems. -/

/-- A user-owned active Game. -/
def sampleGame : Game :=
  { id := 1, ownerId := some "alice", name := "Recall", description := none,
    gameType := "sequence", difficultyLevels := none, isActive := true, createdAt := 0 }

/-- A system-owned (ownerId null) active Game. -/
def systemGame : Game :=
  { id := 1, ownerId := none, name := "Shared", description := none,
    gameType := "pattern", difficultyLevels := none, isActive := true, createdAt := 0 }

/-- A Session of user alice that is already completed. -/
def sampleSession : Session :=
  { id := 1, gameId := 1, userId := "alice", status := .completed, totalScore := 3,
    difficulty := none, startedAt := 0, endedAt := none, meta := none }

/-- A store holding only `sampleGame`. -/
def sampleDB : DB := { DB.empty with games := [sampleGame], nextGameId := 2 }

/-- A store holding only `systemGame`. -/
def systemDB : DB := { DB.empty with games := [systemGame], nextGameId := 2 }

/-- A store holding the alice-owned `sampleGame` and the completed
`sampleSession`. -/
def sessionDB : DB :=
  { DB.empty with games := [sampleGame], nextGameId := 2,
                  sessions := [sampleSession], nextSessionId := 2 }

/-! ### Generic list helpers -/

/-- In a list whose elements have pairwise distinct keys, two members
with the same key are equal. -/
theorem eq_of_pairwise_key {α κ : Type} (key : α → κ) {l : List α}
    (hp : l.Pairwise (fun a b => key a ≠ key b)) {x y : α}
    (hx : x ∈ l) (hy : y ∈ l) (hk : key x = key y) : x = y := by
  induction l with
  | nil => cases hx
  | cons a t ih =>
    rcases List.pairwise_cons.mp hp with ⟨ha, ht⟩
    rcases List.mem_cons.mp hx with hx | hx <;> rcases List.mem_cons.mp hy with hy | hy
    · exact hx.trans hy.symm
    · exact absurd (hx ▸ hk) (ha y hy)
    · exact absurd (hy ▸ hk).symm (ha x hx)
    · exact ih ht hx hy

/-- A map that preserves each member's key preserves pairwise
distinctness of any relation on keys. -/
theorem pairwise_key_map {α κ : Type} (key : α → κ) (R : κ → κ → Prop)
    {l : List α} {f : α → α} (hf : ∀ x ∈ l, key (f x) = key x)
    (hp : l.Pairwise (fun a b => R (key a) (key b))) :
    (l.map f).Pairwise (fun a b => R (key a) (key b)) := by
  induction l with
  | nil => exact List.Pairwise.nil
  | cons a t ih =>
    rcases List.pairwise_cons.mp hp with ⟨ha, ht⟩
    refine List.pairwise_cons.mpr ⟨?_, ih (fun x hx => hf x (List.mem_cons_of_mem a hx)) ht⟩
    intro b hb
    rcases List.mem_map.mp hb with ⟨x, hx, rfl⟩
    rw [hf a (List.mem_cons_self a t), hf x (List.mem_cons_of_mem a hx)]
    exact ha x hx

/-! ### Shape lemmas: the store after a successful call -/

/-- A successful `createGame` appends exactly the returned Game, whose
name is the validated input name. -/
theorem createGame_ok_shape {db : DB} {ctx : Option String} {i : CreateGameInput}
    {now : Nat} {db' : DB} {g : Game}
    (h : createGame db ctx i now = .ok (db', g)) :
    i.valid = true ∧ g.name = i.name ∧
      db' = { db with games := db.games ++ [g], nextGameId := db.nextGameId + 1 } := by
  unfold createGame at h
  cases hv : i.valid with
  | false => rw [hv] at h; simp at h
  | true =>
    rw [hv] at h
    cases ctx with
    | none => simp [requireUser] at h
    | some u =>
      simp only [requireUser, Bool.true_eq_false, if_false] at h
      injection h with h
      injection h with h1 h2
      subst h1; subst h2
      exact ⟨rfl, rfl, rfl⟩

/-- A successful `updateGame` either leaves the store untouched (empty
update) or rewrites exactly the rows matched by the id/owner filter;
the input was validated. -/
theorem updateGame_ok_shape {db : DB} {ctx : Option String} {i : UpdateGameInput}
    {db' : DB} {g : Game}
    (h : updateGame db ctx i = .ok (db', g)) :
    i.valid = true ∧ ∃ user, ctx = some user ∧
      (db' = db ∨
        db' = { db with games := db.games.map (fun x =>
          if x.id == i.id && x.ownerId == some user then applyGameUpdate i x else x) }) := by
  unfold updateGame at h
  cases hv : i.valid with
  | false => rw [hv] at h; simp at h
  | true =>
    rw [hv] at h
    cases ctx with
    | none => simp [requireUser] at h
    | some u =>
      simp only [requireUser, Bool.true_eq_false, if_false] at h
      refine ⟨rfl, u, rfl, ?_⟩
      cases hfind : db.games.find? (fun g => g.id == i.id && g.ownerId == some u) with
      | none => rw [hfind] at h; simp at h
      | some existing =>
        rw [hfind] at h
        cases hemp : i.isEmpty with
        | true =>
          rw [hemp] at h
          simp only [if_true] at h
          injection h with h
          injection h with h1 h2
          exact Or.inl h1.symm
        | false =>
          rw [hemp] at h
          simp only [Bool.false_eq_true, if_false] at h
          injection h with h
          injection h with h1 h2
          exact Or.inr h1.symm

/-- A successful `startSession` appends exactly the returned Session,
which carries the caller identity and a fresh id. -/
theorem startSession_ok_shape {db : DB} {ctx : Option String} {i : StartSessionInput}
    {now : Nat} {db' : DB} {s : Session}
    (h : startSession db ctx i now = .ok (db', s)) :
    ∃ user, ctx = some user ∧ s.userId = user ∧ s.id = db.nextSessionId ∧
      db' = { db with sessions := db.sessions ++ [s],
                      nextSessionId := db.nextSessionId + 1 } := by
  unfold startSession at h
  cases ctx with
  | none => simp [requireUser] at h
  | some u =>
    simp only [requireUser] at h
    refine ⟨u, rfl, ?_⟩
    cases hfind : db.games.find? (gameAccessible i.gameId u) with
    | none => rw [hfind] at h; simp at h
    | some game =>
      rw [hfind] at h
      dsimp only at h
      cases hact : game.isActive with
      | false => rw [hact] at h; simp at h
      | true =>
        rw [hact] at h
        simp only [Bool.true_eq_false, if_false] at h
        injection h with h
        injection h with h1 h2
        subst h1; subst h2
        exact ⟨rfl, rfl, rfl⟩

/-- A successful `completeSession` rewrites exactly the rows whose id
matches the input id, using the `completeSet` values computed from the
looked-up session. -/
theorem completeSession_ok_shape {db : DB} {ctx : Option String}
    {i : CompleteSessionInput} {now : Nat} {db' : DB} {s : Session}
    (h : completeSession db ctx i now = .ok (db', s)) :
    ∃ user session, ctx = some user ∧
      db.sessions.find? (fun x => x.id == i.id && x.userId == user) = some session ∧
      db' = { db with sessions := db.sessions.map (fun x =>
        if x.id == i.id then completeSet i session x now else x) } := by
  unfold completeSession at h
  cases ctx with
  | none => simp [requireUser] at h
  | some u =>
    simp only [requireUser] at h
    cases hfind : db.sessions.find? (fun x => x.id == i.id && x.userId == u) with
    | none => rw [hfind] at h; simp at h
    | some session =>
      rw [hfind] at h
      injection h with h
      injection h with h1 h2
      exact ⟨u, session, rfl, hfind, h1.symm⟩

/-- A successful `recordRound` appends exactly the returned Round. -/
theorem recordRound_ok_shape {db : DB} {ctx : Option String} {i : RecordRoundInput}
    {now : Nat} {db' : DB} {r : Round}
    (h : recordRound db ctx i now = .ok (db', r)) :
    db' = { db with rounds := db.rounds ++ [r], nextRoundId := db.nextRoundId + 1 } := by
  unfold recordRound at h
  cases hv : i.valid with
  | false => rw [hv] at h; simp at h
  | true =>
    rw [hv] at h
    cases ctx with
    | none => simp [requireUser] at h
    | some u =>
      simp only [requireUser, Bool.true_eq_false, if_false] at h
      cases hfind : db.sessions.find? (fun s => s.id == i.sessionId && s.userId == u) with
      | none => rw [hfind] at h; simp at h
      | some s =>
        rw [hfind] at h
        injection h with h
        injection h with h1 h2
        subst h1; subst h2
        rfl

/-- A successful `upsertPerformance` either rewrites exactly the rows
whose id matches the existing row found for the (game, caller) pair, or
appends one fresh row when no such row exists. -/
theorem upsertPerformance_ok_shape {db : DB} {ctx : Option String}
    {i : UpsertPerformanceInput} {now : Nat} {db' : DB} {r : Performance}
    (h : upsertPerformance db ctx i now = .ok (db', r)) :
    ∃ user, ctx = some user ∧
      ((∃ existing,
          db.performances.find? (fun p => p.gameId == i.gameId && p.userId == user) =
            some existing ∧
          db' = { db with performances := db.performances.map (fun p =>
            if p.id == existing.id then perfBase i user (some existing) now p.id else p) }) ∨
        (db.performances.find? (fun p => p.gameId == i.gameId && p.userId == user) = none ∧
          db' = { db with
            performances := db.performances ++ [perfBase i user none now db.nextPerfId],
            nextPerfId := db.nextPerfId + 1 })) := by
  unfold upsertPerformance at h
  cases ctx with
  | none => simp [requireUser] at h
  | some u =>
    simp only [requireUser] at h
    refine ⟨u, rfl, ?_⟩
    cases hgame : db.games.find? (gameAccessible i.gameId u) with
    | none => rw [hgame] at h; simp at h
    | some game =>
      rw [hgame] at h
      cases hfind : db.performances.find? (fun p => p.gameId == i.gameId && p.userId == u) with
      | some existing =>
        rw [hfind] at h
        injection h with h
        injection h with h1 h2
        exact Or.inl ⟨existing, rfl, h1.symm⟩
      | none =>
        rw [hfind] at h
        injection h with h
        injection h with h1 h2
        exact Or.inr ⟨rfl, h1.symm⟩

/-! ### Frame lemmas: which tables each operation leaves untouched -/

/-- `createGame` writes only the Games table. -/
theorem applyOp_createGame_frame (db : DB) (ctx : Option String) (i : CreateGameInput)
    (now : Nat) :
    (applyOp db (.createGame ctx i now)).sessions = db.sessions ∧
    (applyOp db (.createGame ctx i now)).nextSessionId = db.nextSessionId ∧
    (applyOp db (.createGame ctx i now)).performances = db.performances ∧
    (applyOp db (.createGame ctx i now)).nextPerfId = db.nextPerfId := by
  cases h : createGame db ctx i now with
  | error e => simp [applyOp, h]
  | ok p =>
    obtain ⟨db', g⟩ := p
    rcases createGame_ok_shape h with ⟨-, -, rfl⟩
    simp [applyOp, h]

/-- `updateGame` writes only the Games table. -/
theorem applyOp_updateGame_frame (db : DB) (ctx : Option String) (i : UpdateGameInput) :
    (applyOp db (.updateGame ctx i)).sessions = db.sessions ∧
    (applyOp db (.updateGame ctx i)).nextSessionId = db.nextSessionId ∧
    (applyOp db (.updateGame ctx i)).performances = db.performances ∧
    (applyOp db (.updateGame ctx i)).nextPerfId = db.nextPerfId := by
  cases h : updateGame db ctx i with
  | error e => simp [applyOp, h]
  | ok p =>
    obtain ⟨db', g⟩ := p
    rcases updateGame_ok_shape h with ⟨-, user, -, hdb | rfl⟩
    · subst hdb; simp [applyOp, h]
    · simp [applyOp, h]

/-- `listMyGames` is read-only. -/
theorem applyOp_listMyGames_frame (db : DB) (ctx : Option String)
    (includeInactive? : Option Bool) :
    applyOp db (.listMyGames ctx includeInactive?) = db := rfl

/-- `startSession` writes only the Sessions table. -/
theorem applyOp_startSession_frame (db : DB) (ctx : Option String) (i : StartSessionInput)
    (now : Nat) :
    (applyOp db (.startSession ctx i now)).games = db.games ∧
    (applyOp db (.startSession ctx i now)).performances = db.performances ∧
    (applyOp db (.startSession ctx i now)).nextPerfId = db.nextPerfId := by
  cases h : startSession db ctx i now with
  | error e => simp [applyOp, h]
  | ok p =>
    obtain ⟨db', s⟩ := p
    rcases startSession_ok_shape h with ⟨user, -, -, -, rfl⟩
    simp [applyOp, h]

/-- `completeSession` writes only the Sessions table, and does not
consume a fresh id. -/
theorem applyOp_completeSession_frame (db : DB) (ctx : Option String)
    (i : CompleteSessionInput) (now : Nat) :
    (applyOp db (.completeSession ctx i now)).games = db.games ∧
    (applyOp db (.completeSession ctx i now)).nextSessionId = db.nextSessionId ∧
    (applyOp db (.completeSession ctx i now)).performances = db.performances ∧
    (applyOp db (.completeSession ctx i now)).nextPerfId = db.nextPerfId := by
  cases h : completeSession db ctx i now with
  | error e => simp [applyOp, h]
  | ok p =>
    obtain ⟨db', s⟩ := p
    rcases completeSession_ok_shape h with ⟨user, session, -, -, rfl⟩
    simp [applyOp, h]

/-- `recordRound` writes only the Rounds table. -/
theorem applyOp_recordRound_frame (db : DB) (ctx : Option String) (i : RecordRoundInput)
    (now : Nat) :
    (applyOp db (.recordRound ctx i now)).games = db.games ∧
    (applyOp db (.recordRound ctx i now)).sessions = db.sessions ∧
    (applyOp db (.recordRound ctx i now)).nextSessionId = db.nextSessionId ∧
    (applyOp db (.recordRound ctx i now)).performances = db.performances ∧
    (applyOp db (.recordRound ctx i now)).nextPerfId = db.nextPerfId := by
  cases h : recordRound db ctx i now with
  | error e => simp [applyOp, h]
  | ok p =>
    obtain ⟨db', r⟩ := p
    have hs := recordRound_ok_shape h
    subst hs
    simp [applyOp, h]

/-- `upsertPerformance` writes only the Performance table. -/
theorem applyOp_upsertPerformance_frame (db : DB) (ctx : Option String)
    (i : UpsertPerformanceInput) (now : Nat) :
    (applyOp db (.upsertPerformance ctx i now)).games = db.games ∧
    (applyOp db (.upsertPerformance ctx i now)).sessions = db.sessions ∧
    (applyOp db (.upsertPerformance ctx i now)).nextSessionId = db.nextSessionId := by
  cases h : upsertPerformance db ctx i now with
  | error e => simp [applyOp, h]
  | ok p =>
    obtain ⟨db', r⟩ := p
    rcases upsertPerformance_ok_shape h with ⟨user, -, ⟨existing, -, rfl⟩ | ⟨-, rfl⟩⟩ <;>
      simp [applyOp, h]

/-! ### Claims -/

/-- C5: for every caller `u` and Game `g`, `listMyGames u includeInactive`
includes `g` iff `g` is owned by `u` and (`includeInactive` is true or
`g` is active); in particular it never includes a Game of a different
owner nor a system-owned Game. -/
theorem C5_listMyGames_mem_iff (db : DB) (u : String) (includeInactive? : Option Bool) :
    ∃ gs, listMyGames db (some u) includeInactive? = .ok gs ∧
      ∀ g : Game, g ∈ gs ↔
        g ∈ db.games ∧ g.ownerId = some u ∧
          (includeInactive?.getD false = true ∨ g.isActive = true) := by
  refine ⟨_, rfl, ?_⟩
  intro g
  cases hinc : includeInactive?.getD false with
  | true => simp [listMyGames, requireUser, hinc, List.mem_filter]
  | false =>
    simp only [listMyGames, requireUser, hinc, List.mem_filter, Bool.false_eq_true,
      if_false, beq_iff_eq, false_or]
    tauto

/-- C7: `updateGame` on an owned Game with no recognized field present
returns the existing record unchanged and performs no write (the store
is returned as-is). -/
theorem C7_updateGame_empty_noop (db : DB) (u : String) (i : UpdateGameInput)
    (existing : Game)
    (hfind : db.games.find? (fun g => g.id == i.id && g.ownerId == some u) = some existing)
    (hempty : i.isEmpty = true) :
    updateGame db (some u) i = .ok (db, existing) := by
  have hname : i.name = none := by
    unfold UpdateGameInput.isEmpty at hempty
    simp only [Bool.and_eq_true, Option.isNone_iff_eq_none] at hempty
    exact hempty.1.1.1.1
  have hvalid : i.valid = true := by unfold UpdateGameInput.valid; rw [hname]
  simp [updateGame, hvalid, requireUser, hfind, hempty]

/-- C7 witness: an all-omitted update of the sample owned Game. -/
theorem C7_updateGame_empty_noop_witness :
    updateGame sampleDB (some "alice") ⟨1, none, none, none, none, none⟩ =
      .ok (sampleDB, sampleGame) :=
  C7_updateGame_empty_noop sampleDB "alice" ⟨1, none, none, none, none, none⟩ sampleGame
    (by decide) (by decide)

/-- C8: when no Game row matches both the id and the caller as owner —
covering a nonexistent id and a row owned by someone else alike —
`updateGame` fails with the single NotFound error "Game not found." and
the store is unchanged. -/
theorem C8_updateGame_absent_notFound (db : DB) (u : String) (i : UpdateGameInput)
    (hvalid : i.valid = true)
    (habs : ∀ g ∈ db.games, ¬(g.id = i.id ∧ g.ownerId = some u)) :
    updateGame db (some u) i = .error ⟨.notFound, "Game not found."⟩ ∧
      applyOp db (.updateGame (some u) i) = db := by
  have hfind : db.games.find? (fun g => g.id == i.id && g.ownerId == some u) = none := by
    rw [List.find?_eq_none]
    intro g hg
    simp only [Bool.and_eq_true, beq_iff_eq]
    exact habs g hg
  constructor
  · simp [updateGame, hvalid, requireUser, hfind]
  · simp [applyOp, updateGame, hvalid, requireUser, hfind]

/-- C8 witness: caller bob on a Game owned by alice (an existing id
owned by a different user). -/
theorem C8_updateGame_absent_notFound_witness :
    updateGame sampleDB (some "bob") ⟨1, some "X", none, none, none, none⟩ =
        .error ⟨.notFound, "Game not found."⟩ ∧
      applyOp sampleDB (.updateGame (some "bob") ⟨1, some "X", none, none, none, none⟩) =
        sampleDB :=
  C8_updateGame_absent_notFound sampleDB "bob" ⟨1, some "X", none, none, none, none⟩
    (by decide) (by decide)

/-- C2: for a Session owned by the caller, `completeSession` always
stamps `endedAt` with the current time and sets the status to the
supplied one, defaulting to `completed` when omitted. -/
theorem C2_completeSession_endedAt (db : DB) (u : String) (i : CompleteSessionInput)
    (now : Nat) (s : Session)
    (hfind : db.sessions.find? (fun x => x.id == i.id && x.userId == u) = some s) :
    ∃ db' r, completeSession db (some u) i now = .ok (db', r) ∧
      r.endedAt = some now ∧ r.status = i.status.getD .completed := by
  unfold completeSession requireUser
  dsimp only
  rw [hfind]
  exact ⟨_, _, rfl, rfl, rfl⟩

/-- C2 witness: completing the already-completed sample Session with an
explicit `abandoned` status still stamps `endedAt`. -/
theorem C2_completeSession_endedAt_witness :
    ∃ db' r, completeSession sessionDB (some "alice") ⟨1, none, none, some .abandoned, none⟩ 7 =
        .ok (db', r) ∧ r.endedAt = some 7 ∧ r.status = .abandoned :=
  C2_completeSession_endedAt sessionDB "alice" ⟨1, none, none, some .abandoned, none⟩ 7
    sampleSession (by decide)

/-- C6: for any Session of the caller, whatever its status,
`recordRound` succeeds and appends a Round whose `roundNumber` defaults
to 1, `isCorrect` to `false` and `score` to 0 when omitted. -/
theorem C6_recordRound_spec (db : DB) (u : String) (i : RecordRoundInput) (now : Nat)
    (s : Session) (hvalid : i.valid = true)
    (hfind : db.sessions.find? (fun x => x.id == i.sessionId && x.userId == u) = some s) :
    ∃ db' r, recordRound db (some u) i now = .ok (db', r) ∧
      db'.rounds = db.rounds ++ [r] ∧ r.roundNumber = i.roundNumber.getD 1 ∧
      r.isCorrect = i.isCorrect.getD false ∧ r.score = i.score.getD 0 := by
  unfold recordRound requireUser
  rw [hvalid]
  simp only [Bool.true_eq_false, if_false]
  rw [hfind]
  exact ⟨_, _, rfl, rfl, rfl, rfl, rfl⟩

/-- C6 witness: a Round recorded against the completed sample Session,
with all optional fields omitted. -/
theorem C6_recordRound_spec_witness :
    ∃ db' r, recordRound sessionDB (some "alice") ⟨1, none, some "p", none, none, none⟩ 9 =
        .ok (db', r) ∧ db'.rounds = sessionDB.rounds ++ [r] ∧
      r.roundNumber = 1 ∧ r.isCorrect = false ∧ r.score = 0 :=
  C6_recordRound_spec sessionDB "alice" ⟨1, none, some "p", none, none, none⟩ 9
    sampleSession (by decide) (by decide)

/-- C3 (amended): for a Game the accessibility filter accepts — in the
program that means a Game owned by the caller, the `ownerId = NULL`
disjunct never matching — `upsertPerformance` merges each numeric
field as supplied value, else the existing row's value, else 0, and
`difficultyPreference` as supplied value else existing value with no
default, always setting `updatedAt` to now. -/
theorem C3_upsertPerformance_merge (db : DB) (u : String) (i : UpsertPerformanceInput)
    (now : Nat) (game : Game)
    (hgame : db.games.find? (gameAccessible i.gameId u) = some game) :
    ∃ db' r, upsertPerformance db (some u) i now = .ok (db', r) ∧
      r.totalSessions = i.totalSessions.getD
        (((db.performances.find? (fun p => p.gameId == i.gameId && p.userId == u)).map
          Performance.totalSessions).getD 0) ∧
      r.averageScore = i.averageScore.getD
        (((db.performances.find? (fun p => p.gameId == i.gameId && p.userId == u)).map
          Performance.averageScore).getD 0) ∧
      r.bestScore = i.bestScore.getD
        (((db.performances.find? (fun p => p.gameId == i.gameId && p.userId == u)).map
          Performance.bestScore).getD 0) ∧
      r.difficultyPreference = (match i.difficultyPreference with
        | some d => some d
        | none =>
          ((db.performances.find? (fun p => p.gameId == i.gameId && p.userId == u)).map
            Performance.difficultyPreference).getD none) ∧
      r.updatedAt = now := by
  unfold upsertPerformance requireUser
  dsimp only
  rw [hgame]
  dsimp only
  cases hex : db.performances.find? (fun p => p.gameId == i.gameId && p.userId == u) with
  | some existing => exact ⟨_, _, rfl, rfl, rfl, rfl, rfl, rfl⟩
  | none => exact ⟨_, _, rfl, rfl, rfl, rfl, rfl, rfl⟩

/-- C3 counterexample: the claim's scenario against a system-owned Game
(accessible per the claim's reading) fails at the first call — the
`ownerId = NULL` disjunct of the filter never matches, so the upsert is
rejected NotFound instead of inserting the merged row. -/
theorem C3_upsert_system_owned_notFound :
    systemGame.ownerId = none ∧ systemGame ∈ systemDB.games ∧
    upsertPerformance systemDB (some "alice") ⟨1, some 5, none, none, none⟩ 10 =
      .error ⟨.notFound, "Game not found."⟩ :=
  ⟨rfl, List.mem_singleton.mpr rfl, rfl⟩

/-- C3 witness: the two-call scenario against the caller-owned sample
Game — a first call supplying only `totalSessions = 5` creates a row
with zero scores, and a second call supplying only `bestScore = 90`
retains `totalSessions` and `averageScore`. -/
theorem C3_upsertPerformance_merge_witness :
    (∃ db' r, upsertPerformance sampleDB (some "alice") ⟨1, some 5, none, none, none⟩ 10 =
        .ok (db', r) ∧ r.totalSessions = 5 ∧ r.averageScore = 0 ∧ r.bestScore = 0) ∧
    (∃ db' r, upsertPerformance
        (applyOp sampleDB (.upsertPerformance (some "alice") ⟨1, some 5, none, none, none⟩ 10))
        (some "alice") ⟨1, none, none, some 90, none⟩ 11 = .ok (db', r) ∧
        r.totalSessions = 5 ∧ r.bestScore = 90 ∧ r.averageScore = 0) := by
  constructor
  · obtain ⟨db', r, heq, h1, h2, h3, -, -⟩ :=
      C3_upsertPerformance_merge sampleDB "alice" ⟨1, some 5, none, none, none⟩ 10
        sampleGame (by decide)
    exact ⟨db', r, heq, h1.trans (by decide), h2.trans (by decide), h3.trans (by decide)⟩
  · obtain ⟨db', r, heq, h1, h2, h3, -, -⟩ :=
      C3_upsertPerformance_merge
        (applyOp sampleDB (.upsertPerformance (some "alice") ⟨1, some 5, none, none, none⟩ 10))
        "alice" ⟨1, none, none, some 90, none⟩ 11 sampleGame (by decide)
    exact ⟨db', r, heq, h1.trans (by decide), h3.trans (by decide), h2.trans (by decide)⟩

/-- C1: evaluation at the failing input — a system-owned (`ownerId`
null) active Game is rejected for every caller, because the
`ownerId = NULL` disjunct of the accessibility filter never matches a
row; `startSession` fails NotFound "Game not available." where the
claim, the spec and the schema comment `system = null` expect a fresh
`in_progress` Session. -/
theorem C1_startSession_system_owned_notFound :
    systemGame.ownerId = none ∧ systemGame.isActive = true ∧
    systemGame ∈ systemDB.games ∧
    startSession systemDB (some "bob") ⟨1, none, none⟩ 5 =
      .error ⟨.notFound, "Game not available."⟩ :=
  ⟨rfl, rfl, List.mem_singleton.mpr rfl, rfl⟩

/-- Every row written by the `completeSession` update keeps its id and
its userId (the `set` object touches neither column). -/
theorem completeSet_id_userId (i : CompleteSessionInput) (session : Session) (now : Nat)
    (x : Session) :
    (if (x.id == i.id) = true then completeSet i session x now else x).id = x.id ∧
    (if (x.id == i.id) = true then completeSet i session x now else x).userId = x.userId := by
  split <;> exact ⟨rfl, rfl⟩

/-- No operation changes the userId of a Session row already present:
any row of the resulting store sharing an id with a pre-existing row
carries the same userId. -/
theorem userId_stable_applyOp {db : DB} (op : Op) (hinv : SessionsInv db)
    {s : Session} (hs : s ∈ db.sessions) {s' : Session}
    (hs' : s' ∈ (applyOp db op).sessions) (hid : s'.id = s.id) :
    s'.userId = s.userId := by
  have huniq := hinv.2
  cases op with
  | createGame ctx i now =>
    rw [(applyOp_createGame_frame db ctx i now).1] at hs'
    exact congrArg Session.userId (eq_of_pairwise_key Session.id huniq hs' hs hid)
  | updateGame ctx i =>
    rw [(applyOp_updateGame_frame db ctx i).1] at hs'
    exact congrArg Session.userId (eq_of_pairwise_key Session.id huniq hs' hs hid)
  | listMyGames ctx includeInactive? =>
    rw [applyOp_listMyGames_frame] at hs'
    exact congrArg Session.userId (eq_of_pairwise_key Session.id huniq hs' hs hid)
  | recordRound ctx i now =>
    rw [(applyOp_recordRound_frame db ctx i now).2.1] at hs'
    exact congrArg Session.userId (eq_of_pairwise_key Session.id huniq hs' hs hid)
  | upsertPerformance ctx i now =>
    rw [(applyOp_upsertPerformance_frame db ctx i now).2.1] at hs'
    exact congrArg Session.userId (eq_of_pairwise_key Session.id huniq hs' hs hid)
  | startSession ctx i now =>
    cases h : startSession db ctx i now with
    | error e =>
      have hfr : applyOp db (.startSession ctx i now) = db := by simp [applyOp, h]
      rw [hfr] at hs'
      exact congrArg Session.userId (eq_of_pairwise_key Session.id huniq hs' hs hid)
    | ok p =>
      obtain ⟨db', snew⟩ := p
      rcases startSession_ok_shape h with ⟨user, -, -, hsid, rfl⟩
      have hfr : applyOp db (.startSession ctx i now) =
          { db with sessions := db.sessions ++ [snew],
                    nextSessionId := db.nextSessionId + 1 } := by
        simp [applyOp, h]
      rw [hfr] at hs'
      rcases List.mem_append.mp hs' with hmem | hmem
      · exact congrArg Session.userId (eq_of_pairwise_key Session.id huniq hmem hs hid)
      · exfalso
        have hnew : s' = snew := by simpa using hmem
        have hlt := hinv.1 s hs
        rw [hnew, hsid] at hid
        rw [hid] at hlt
        exact Nat.lt_irrefl _ hlt
  | completeSession ctx i now =>
    cases h : completeSession db ctx i now with
    | error e =>
      have hfr : applyOp db (.completeSession ctx i now) = db := by simp [applyOp, h]
      rw [hfr] at hs'
      exact congrArg Session.userId (eq_of_pairwise_key Session.id huniq hs' hs hid)
    | ok p =>
      obtain ⟨db', r⟩ := p
      rcases completeSession_ok_shape h with ⟨user, session, -, -, rfl⟩
      have hfr : applyOp db (.completeSession ctx i now) =
          { db with sessions := db.sessions.map (fun x =>
              if x.id == i.id then completeSet i session x now else x) } := by
        simp [applyOp, h]
      rw [hfr] at hs'
      rcases List.mem_map.mp hs' with ⟨x, hx, rfl⟩
      have hfx := completeSet_id_userId i session now x
      have hxs : x = s :=
        eq_of_pairwise_key Session.id huniq hx hs (hfx.1.symm.trans hid)
      rw [hfx.2, hxs]

/-- C9: `completeSession` never changes a Session's userId, gameId or
startedAt, and keeps totalScore, difficulty and meta at their existing
values when those inputs are omitted; moreover no operation at all
changes the userId of an existing Session row. -/
theorem C9_session_frame :
    (∀ (db : DB) (u : String) (i : CompleteSessionInput) (now : Nat) (s : Session),
      db.sessions.find? (fun x => x.id == i.id && x.userId == u) = some s →
      db.sessions.find? (fun x => x.id == i.id) = some s →
      ∃ db' r, completeSession db (some u) i now = .ok (db', r) ∧
        r.userId = s.userId ∧ r.gameId = s.gameId ∧ r.startedAt = s.startedAt ∧
        (i.totalScore = none → r.totalScore = s.totalScore) ∧
        (i.difficulty = none → r.difficulty = s.difficulty) ∧
        (i.meta = none → r.meta = s.meta)) ∧
    (∀ (db : DB) (op : Op), SessionsInv db →
      ∀ s ∈ db.sessions, ∀ s' ∈ (applyOp db op).sessions, s'.id = s.id →
        s'.userId = s.userId) := by
  constructor
  · intro db u i now s hfind hfirst
    unfold completeSession requireUser
    dsimp only
    rw [hfind]
    dsimp only
    rw [hfirst]
    refine ⟨_, _, rfl, rfl, rfl, rfl, ?_, ?_, ?_⟩ <;> intro h <;> simp [completeSet, h]
  · intro db op hinv s hs s' hs' hid
    exact userId_stable_applyOp op hinv hs hs' hid

/-- C9 witness: completing the sample Session with every input omitted
keeps all its frame fields, and `startSession` by alice on her own Game
— which really appends a fresh Session — leaves the existing Session
row's userId untouched. -/
theorem C9_session_frame_witness :
    (∃ db' r, completeSession sessionDB (some "alice") ⟨1, none, none, none, none⟩ 4 =
        .ok (db', r) ∧ r.userId = "alice" ∧ r.gameId = 1 ∧ r.startedAt = 0 ∧
        r.totalScore = 3 ∧ r.difficulty = none ∧ r.meta = none) ∧
    (∀ s ∈ sessionDB.sessions,
      ∀ s' ∈ (applyOp sessionDB (.startSession (some "alice") ⟨1, none, none⟩ 2)).sessions,
        s'.id = s.id → s'.userId = s.userId) := by
  constructor
  · obtain ⟨db', r, heq, h1, h2, h3, h4, h5, h6⟩ :=
      C9_session_frame.1 sessionDB "alice" ⟨1, none, none, none, none⟩ 4 sampleSession
        (by decide) (by decide)
    exact ⟨db', r, heq, h1, h2, h3, h4 rfl, h5 rfl, h6 rfl⟩
  · exact C9_session_frame.2 sessionDB (.startSession (some "alice") ⟨1, none, none⟩ 2)
      (by decide)

/-- One step preserves well-formedness of the Performance table. -/
theorem perfInv_applyOp {db : DB} (op : Op) (h : PerfInv db) : PerfInv (applyOp db op) := by
  obtain ⟨hbound, hids, hpairs⟩ := h
  cases op with
  | createGame ctx i now =>
    have hfr := applyOp_createGame_frame db ctx i now
    exact ⟨hfr.2.2.2 ▸ hfr.2.2.1 ▸ hbound, hfr.2.2.1 ▸ hids, hfr.2.2.1 ▸ hpairs⟩
  | updateGame ctx i =>
    have hfr := applyOp_updateGame_frame db ctx i
    exact ⟨hfr.2.2.2 ▸ hfr.2.2.1 ▸ hbound, hfr.2.2.1 ▸ hids, hfr.2.2.1 ▸ hpairs⟩
  | listMyGames ctx includeInactive? =>
    rw [applyOp_listMyGames_frame]
    exact ⟨hbound, hids, hpairs⟩
  | startSession ctx i now =>
    have hfr := applyOp_startSession_frame db ctx i now
    exact ⟨hfr.2.2 ▸ hfr.2.1 ▸ hbound, hfr.2.1 ▸ hids, hfr.2.1 ▸ hpairs⟩
  | completeSession ctx i now =>
    have hfr := applyOp_completeSession_frame db ctx i now
    exact ⟨hfr.2.2.2 ▸ hfr.2.2.1 ▸ hbound, hfr.2.2.1 ▸ hids, hfr.2.2.1 ▸ hpairs⟩
  | recordRound ctx i now =>
    have hfr := applyOp_recordRound_frame db ctx i now
    exact ⟨hfr.2.2.2.2 ▸ hfr.2.2.2.1 ▸ hbound, hfr.2.2.2.1 ▸ hids, hfr.2.2.2.1 ▸ hpairs⟩
  | upsertPerformance ctx i now =>
    cases hre : upsertPerformance db ctx i now with
    | error e =>
      have hfr : applyOp db (.upsertPerformance ctx i now) = db := by simp [applyOp, hre]
      rw [hfr]
      exact ⟨hbound, hids, hpairs⟩
    | ok p =>
      obtain ⟨db', r⟩ := p
      rcases upsertPerformance_ok_shape hre with
        ⟨user, -, ⟨existing, hfindex, rfl⟩ | ⟨hfindex, rfl⟩⟩
      · have hfr : applyOp db (.upsertPerformance ctx i now) =
            { db with performances := db.performances.map (fun p =>
              if p.id == existing.id then perfBase i user (some existing) now p.id
              else p) } := by
          simp [applyOp, hre]
        rw [hfr]
        have hexmem := List.mem_of_find?_eq_some hfindex
        have hexkey := List.find?_some hfindex
        simp only [Bool.and_eq_true, beq_iff_eq] at hexkey
        have hidpres : ∀ x ∈ db.performances,
            (if (x.id == existing.id) = true
              then perfBase i user (some existing) now x.id else x).id = x.id := by
          intro x hx
          split <;> rfl
        have hkeypres : ∀ x ∈ db.performances,
            ((if (x.id == existing.id) = true
              then perfBase i user (some existing) now x.id else x).userId,
             (if (x.id == existing.id) = true
              then perfBase i user (some existing) now x.id else x).gameId) =
            (x.userId, x.gameId) := by
          intro x hx
          split
          · rename_i hxe
            have hxeq : x = existing :=
              eq_of_pairwise_key Performance.id hids hx hexmem (by simpa using hxe)
            rw [hxeq]
            simp [perfBase, hexkey.1, hexkey.2]
          · rfl
        refine ⟨?_, ?_, ?_⟩
        · intro p hp
          rcases List.mem_map.mp hp with ⟨x, hx, rfl⟩
          rw [hidpres x hx]
          exact hbound x hx
        · exact pairwise_key_map Performance.id Ne hidpres hids
        · exact pairwise_key_map (fun p : Performance => (p.userId, p.gameId)) Ne hkeypres hpairs
      · have hfr : applyOp db (.upsertPerformance ctx i now) =
            { db with
              performances := db.performances ++ [perfBase i user none now db.nextPerfId],
              nextPerfId := db.nextPerfId + 1 } := by
          simp [applyOp, hre]
        rw [hfr]
        have habsent := List.find?_eq_none.mp hfindex
        refine ⟨?_, ?_, ?_⟩
        · intro p hp
          rcases List.mem_append.mp hp with hmem | hmem
          · exact Nat.lt_succ_of_lt (hbound p hmem)
          · have : p = perfBase i user none now db.nextPerfId := by simpa using hmem
            rw [this]
            exact Nat.lt_succ_self _
        · rw [List.pairwise_append]
          refine ⟨hids, List.pairwise_singleton _ _, ?_⟩
          intro a ha b hb
          have hbnew : b = perfBase i user none now db.nextPerfId := by simpa using hb
          rw [hbnew]
          exact Nat.ne_of_lt (hbound a ha)
        · rw [List.pairwise_append]
          refine ⟨hpairs, List.pairwise_singleton _ _, ?_⟩
          intro a ha b hb
          have hbnew : b = perfBase i user none now db.nextPerfId := by simpa using hb
          have hamiss := habsent a ha
          simp only [Bool.and_eq_true, beq_iff_eq, not_and] at hamiss
          rw [hbnew]
          simp only [perfBase, ne_eq, Prod.mk.injEq, not_and]
          intro hu hg
          exact hamiss (by simpa using hg) (by simpa using hu)

/-- Well-formedness of the Performance table holds in every reachable
state. -/
theorem perfInv_reachable {db0 db : DB} (h0 : PerfInv db0) (hre : Reachable db0 db) :
    PerfInv db := by
  induction hre with
  | refl => exact h0
  | step op hre ih => exact perfInv_applyOp op ih

/-- C4: in every state reachable by sequences of the seven operations
from a well-formed Performance table, there is at most one Performance
row per (userId, gameId) pair; and no operation other than
`upsertPerformance` writes the Performance table. -/
theorem C4_perf_pair_unique :
    (∀ db0 db : DB, PerfInv db0 → Reachable db0 db →
      db.performances.Pairwise (fun a b => (a.userId, a.gameId) ≠ (b.userId, b.gameId))) ∧
    (∀ (db : DB) (op : Op), op.isUpsertPerformance = false →
      (applyOp db op).performances = db.performances) := by
  constructor
  · intro db0 db h0 hre
    exact (perfInv_reachable h0 hre).2.2
  · intro db op hop
    cases op with
    | createGame ctx i now => exact (applyOp_createGame_frame db ctx i now).2.2.1
    | updateGame ctx i => exact (applyOp_updateGame_frame db ctx i).2.2.1
    | listMyGames ctx includeInactive? => rw [applyOp_listMyGames_frame]
    | startSession ctx i now => exact (applyOp_startSession_frame db ctx i now).2.1
    | completeSession ctx i now => exact (applyOp_completeSession_frame db ctx i now).2.2.1
    | recordRound ctx i now => exact (applyOp_recordRound_frame db ctx i now).2.2.2.1
    | upsertPerformance ctx i now => cases hop

/-- C4 witness: after one upsert by alice against her own Game —
a call that really inserts a Performance row — starting from the
well-formed sample store, the pair-uniqueness invariant holds; and a
`createGame` call writes no Performance row. -/
theorem C4_perf_pair_unique_witness :
    (applyOp sampleDB
        (.upsertPerformance (some "alice") ⟨1, some 5, none, none, none⟩ 10)).performances.Pairwise
      (fun a b => (a.userId, a.gameId) ≠ (b.userId, b.gameId)) ∧
    (applyOp sampleDB
        (.createGame (some "alice") ⟨"Recall", none, "sequence", none, none⟩ 3)).performances =
      sampleDB.performances :=
  ⟨C4_perf_pair_unique.1 sampleDB _ (by decide)
      (Reachable.step _ (Reachable.refl _)),
   C4_perf_pair_unique.2 sampleDB
      (.createGame (some "alice") ⟨"Recall", none, "sequence", none, none⟩ 3) rfl⟩

/-- One step preserves non-emptiness of every Game name: `createGame`
validates `name.min(1)` and `updateGame` validates any supplied name
the same way, while no other operation writes the Games table. -/
theorem namesNonempty_applyOp {db : DB} (op : Op) (h : NamesNonempty db) :
    NamesNonempty (applyOp db op) := by
  cases op with
  | createGame ctx i now =>
    cases hre : createGame db ctx i now with
    | error e =>
      have hfr : applyOp db (.createGame ctx i now) = db := by simp [applyOp, hre]
      rw [hfr]
      exact h
    | ok p =>
      obtain ⟨db', g⟩ := p
      rcases createGame_ok_shape hre with ⟨hvalid, hname, rfl⟩
      have hfr : applyOp db (.createGame ctx i now) =
          { db with games := db.games ++ [g], nextGameId := db.nextGameId + 1 } := by
        simp [applyOp, hre]
      rw [hfr]
      intro g' hg'
      rcases List.mem_append.mp hg' with hmem | hmem
      · exact h g' hmem
      · have hgg : g' = g := by simpa using hmem
        rw [hgg, hname]
        unfold CreateGameInput.valid at hvalid
        simp only [Bool.and_eq_true, decide_eq_true_eq] at hvalid
        intro hemp
        rw [hemp] at hvalid
        exact absurd hvalid.1 (by decide)
  | updateGame ctx i =>
    cases hre : updateGame db ctx i with
    | error e =>
      have hfr : applyOp db (.updateGame ctx i) = db := by simp [applyOp, hre]
      rw [hfr]
      exact h
    | ok p =>
      obtain ⟨db', g⟩ := p
      rcases updateGame_ok_shape hre with ⟨hvalid, user, -, hdb | hdb⟩
      · have hfr : applyOp db (.updateGame ctx i) = db' := by simp [applyOp, hre]
        rw [hfr, hdb]
        exact h
      · have hfr : applyOp db (.updateGame ctx i) = db' := by simp [applyOp, hre]
        rw [hfr, hdb]
        intro g' hg'
        rcases List.mem_map.mp hg' with ⟨x, hx, rfl⟩
        by_cases hc : (x.id == i.id && x.ownerId == some user) = true
        · rw [if_pos hc]
          show (applyGameUpdate i x).name ≠ ""
          unfold applyGameUpdate
          dsimp only
          cases hn : i.name with
          | none => simp only [hn, Option.getD_none]; exact h x hx
          | some n =>
            simp only [hn, Option.getD_some]
            unfold UpdateGameInput.valid at hvalid
            rw [hn] at hvalid
            simp only [decide_eq_true_eq] at hvalid
            intro hemp
            rw [hemp] at hvalid
            exact absurd hvalid (by decide)
        · rw [if_neg hc]
          exact h x hx
  | listMyGames ctx includeInactive? =>
    rw [applyOp_listMyGames_frame]
    exact h
  | startSession ctx i now =>
    rw [NamesNonempty, (applyOp_startSession_frame db ctx i now).1]
    exact h
  | completeSession ctx i now =>
    rw [NamesNonempty, (applyOp_completeSession_frame db ctx i now).1]
    exact h
  | recordRound ctx i now =>
    rw [NamesNonempty, (applyOp_recordRound_frame db ctx i now).1]
    exact h
  | upsertPerformance ctx i now =>
    rw [NamesNonempty, (applyOp_upsertPerformance_frame db ctx i now).1]
    exact h

/-- Non-emptiness of every Game name holds in every reachable state. -/
theorem namesNonempty_reachable {db0 db : DB} (h0 : NamesNonempty db0)
    (hre : Reachable db0 db) : NamesNonempty db := by
  induction hre with
  | refl => exact h0
  | step op hre ih => exact namesNonempty_applyOp op ih

/-- C10: `updateGame` can set an existing owned Game's `gameType` to
the empty string — its schema accepts any string there, unlike
`createGame` which rejects an empty `gameType` — whereas no sequence of
operations can produce a Game with an empty name. -/
theorem C10_gameType_empty_vs_name :
    (∃ db' g, updateGame sampleDB (some "alice") ⟨1, none, none, some "", none, none⟩ =
        .ok (db', g) ∧ g.gameType = "" ∧ g ∈ db'.games) ∧
    UpdateGameInput.valid ⟨1, none, none, some "", none, none⟩ = true ∧
    (∀ i : CreateGameInput, i.gameType = "" → i.valid = false) ∧
    (∀ db0 db : DB, NamesNonempty db0 → Reachable db0 db → NamesNonempty db) := by
  refine ⟨⟨_, _, rfl, rfl, by decide⟩, rfl, ?_, ?_⟩
  · intro i hi
    unfold CreateGameInput.valid
    rw [hi, show (("" : String).length = 0) from rfl]
    simp
  · intro db0 db h0 hre
    exact namesNonempty_reachable h0 hre

/-- C10 witness: the concrete empty-gameType `createGame` input is
rejected by validation, and every Game name is still non-empty after
the empty-gameType update of the sample store. -/
theorem C10_gameType_empty_vs_name_witness :
    CreateGameInput.valid ⟨"Recall", none, "", none, none⟩ = false ∧
    NamesNonempty (applyOp sampleDB
      (.updateGame (some "alice") ⟨1, none, none, some "", none, none⟩)) :=
  ⟨C10_gameType_empty_vs_name.2.2.1 ⟨"Recall", none, "", none, none⟩ rfl,
   C10_gameType_empty_vs_name.2.2.2 sampleDB _ (by decide)
     (Reachable.step _ (Reachable.refl _))⟩

end MemoryTrainer
